import Mathlib

/-!
# Verification of the jj CLI concurrency-and-reconciliation core

Shallow embedding of the operation-head resolver, working-copy staleness
classifier, transaction-finish protocol and conflict-delta reporter from
`src/cli/src/cli_util.rs`.  Operation ids, commit ids, tree ids and change
ids are modelled as `Nat`; the operation DAG and the commit DAG are given
by a parent function `Nat → List Nat`; external stores are oracles passed
in as function parameters.  Fallible steps return `Except`/`Option`;
a `panic!`/`expect` is modelled as `none`.
-/

namespace JJ

/-! ## Operation DAG and the common-ancestor walk -/

/-- An operation-log node: unique id plus ordered parent ids. -/
structure Op where
  id : Nat
  parents : List Nat
  deriving DecidableEq, Repr

/-- Modelled from the spec: `dag_walk` breadth-first ancestor enumeration
(the spec's "standard DAG walk from both endpoints expanding parents
breadth-first"); `dag_walk::closest_common_node_ok` itself lives in jj-lib,
outside `src/`.  `bfsList par fuel frontier` lists every node reachable
from `frontier` by following parents for at most `fuel` steps, in
breadth-first level order. -/
def bfsList (par : Nat → List Nat) : Nat → List Nat → List Nat
  | 0, frontier => frontier
  | n + 1, frontier => frontier ++ bfsList par n (frontier.flatMap par)

/-- Modelled from the spec: the closest-common-ancestor search used by
`check_stale_working_copy` ("walk the operation DAG to find the closest
common ancestor"); returns the first ancestor of `a` in breadth-first
order that is also an ancestor of `b`, or `none` when the walk finds no
common node. -/
def closestCommonNode (par : Nat → List Nat) (fuel : Nat) (a b : Nat) : Option Nat :=
  (bfsList par fuel [a]).find? (fun x => (bfsList par fuel [b]).contains x)

/-- The four-state result of `check_stale_working_copy`. -/
inductive WorkingCopyFreshness where
  | Fresh
  | Updated (wcOp : Nat)
  | WorkingCopyStale
  | SiblingOperation
  deriving DecidableEq, Repr

/-- `check_stale_working_copy` (cli_util.rs:1972-2012).  Inputs: the
recorded tree id `wcTreeId` (`locked_wc.old_tree_id()`), the tree id
`wcCommitTreeId` of the snapshot-visible working-copy commit, the recorded
operation id `wcOpId` (`locked_wc.old_operation_id()`), and the snapshot's
operation id `repoOpId`.  `none` models the `.expect("unrelated
operations")` panic when the common-ancestor search fails. -/
def check_stale_working_copy (par : Nat → List Nat) (fuel : Nat)
    (wcTreeId wcCommitTreeId wcOpId repoOpId : Nat) : Option WorkingCopyFreshness :=
  if wcCommitTreeId = wcTreeId then
    some .Fresh
  else
    match closestCommonNode par fuel wcOpId repoOpId with
    | none => none
    | some ancestorOp =>
      if ancestorOp = repoOpId then
        some (.Updated wcOpId)
      else if ancestorOp = wcOpId then
        some .WorkingCopyStale
      else
        some .SiblingOperation

/-- The breadth-first list from a singleton frontier starts with that node. -/
theorem bfsList_single_head (par : Nat → List Nat) (fuel x : Nat) :
    ∃ t, bfsList par fuel [x] = x :: t := by
  cases fuel with
  | zero => exact ⟨[], rfl⟩
  | succ n => exact ⟨_, rfl⟩

/-- The walk from an operation to itself finds that operation. -/
theorem closestCommonNode_self (par : Nat → List Nat) (fuel x : Nat) :
    closestCommonNode par fuel x x = some x := by
  obtain ⟨t, ht⟩ := bfsList_single_head par fuel x
  unfold closestCommonNode
  rw [ht]
  simp [List.find?]

/-! ## snapshot_working_copy: the error paths around the classifier -/

/-- Per-workspace persisted working-copy record `(operation id, tree id)`. -/
structure WCRec where
  op_id : Nat
  tree_id : Nat
  deriving DecidableEq, Repr

/-- The failure modes of `snapshot_working_copy` that this development
tracks.  `staleWorkingCopy` is the user error carrying the
stale-working-copy hint and the recorded operation id that the message
names; `siblingOperations` is the internal error naming the repository's
and the working copy's operation ids; `unrelatedOperations` models the
`expect` panic of the ancestor search. -/
inductive SnapshotError where
  | unrelatedOperations
  | staleWorkingCopy (recordedOp : Nat)
  | siblingOperations (repoOp : Nat) (wcOp : Nat)
  deriving DecidableEq, Repr

/-- The tail of `snapshot_working_copy` (cli_util.rs:1476-1511) once the
repo has been (re)loaded at `curOp` and the working-copy commit is
`wcCommit`: take a filesystem snapshot producing `newTreeId`; if it
differs from the commit's tree, rewrite the commit in a transaction and
commit it as a fresh operation `freshOp`; either way record the final
operation id into the working-copy record (`locked_ws.finish`). -/
def snapshotAfterReload (treeOf : Nat → Nat) (newTreeId freshOp curOp wcCommit : Nat) :
    (Nat × WCRec) × Except SnapshotError Unit :=
  if newTreeId ≠ treeOf wcCommit then
    ((freshOp, ⟨freshOp, newTreeId⟩), .ok ())
  else
    ((curOp, ⟨curOp, newTreeId⟩), .ok ())

/-- `snapshot_working_copy` (cli_util.rs:1422-1512).  `treeOf` maps a
commit id to its tree id; `viewWc` maps an operation id to the
working-copy commit id its View records for this workspace (none =
workspace deleted); `newTreeId` is the oracle for `locked_wc.snapshot`;
`freshOp` the id a transaction commit would mint.  Returns the final
`(user_repo operation id, working-copy record)` state and the outcome. -/
def snapshot_working_copy (par : Nat → List Nat) (fuel : Nat)
    (treeOf : Nat → Nat) (viewWc : Nat → Option Nat)
    (newTreeId freshOp repoOp : Nat) (rec : WCRec) :
    (Nat × WCRec) × Except SnapshotError Unit :=
  match viewWc repoOp with
  | none => ((repoOp, rec), .ok ())
  | some wcCommit =>
    match check_stale_working_copy par fuel rec.tree_id (treeOf wcCommit) rec.op_id repoOp with
    | none => ((repoOp, rec), .error .unrelatedOperations)
    | some .Fresh => snapshotAfterReload treeOf newTreeId freshOp repoOp wcCommit
    | some (.Updated wcOp) =>
      match viewWc wcOp with
      | none => ((repoOp, rec), .ok ())
      | some wcCommit2 => snapshotAfterReload treeOf newTreeId freshOp wcOp wcCommit2
    | some .WorkingCopyStale => ((repoOp, rec), .error (.staleWorkingCopy rec.op_id))
    | some .SiblingOperation => ((repoOp, rec), .error (.siblingOperations repoOp rec.op_id))

/-! ## Operation head resolution -/

/-- The transaction state the head-resolution callback threads: the base
operation, the parent ids the eventual operation will carry, and how many
descendant-rebase passes have run. -/
structure ResolveTx where
  base_op : Nat
  parentIds : List Nat
  rebasePasses : Nat
  deriving DecidableEq, Repr

/-- `start_repo_transaction` on the repo loaded at the first head: the
upcoming operation starts with that head as sole parent. -/
def start_repo_transaction (base : Op) : ResolveTx :=
  ⟨base.id, [base.id], 0⟩

/-- Modelled from the spec: `Transaction::merge_operation` (jj-lib, not
under `src/`) absorbs another op head, adding it as a parent of the
operation the transaction will commit. -/
def merge_operation (tx : ResolveTx) (other : Op) : ResolveTx :=
  { tx with parentIds := tx.parentIds ++ [other.id] }

/-- Modelled from the spec: `rebase_descendants` rewrites descendants of
commits rewritten so far; for head resolution what matters is that one
pass runs after each merge (its commit count is reported, not used). -/
def rebase_descendants (tx : ResolveTx) : ResolveTx :=
  { tx with rebasePasses := tx.rebasePasses + 1 }

/-- Modelled from the spec: `tx.write(..).leave_unpublished().operation()`
commits the transaction as a new operation with a fresh id and the
accumulated parent ids. -/
def tx_write (tx : ResolveTx) (freshId : Nat) : Op :=
  ⟨freshId, tx.parentIds⟩

/-- The closure passed to `resolve_op_heads` in
`CommandHelper::resolve_operation` (cli_util.rs:710-735): base the
transaction on the first head, then merge each remaining head and run a
descendant-rebase pass, and finally write the transaction. -/
def resolve_current_callback (freshId : Nat) (base : Op) (rest : List Op) : Op × Nat :=
  let tx := rest.foldl (fun t o => rebase_descendants (merge_operation t o))
    (start_repo_transaction base)
  (tx_write tx freshId, tx.rebasePasses)

/-- The outcome of resolving the symbolic `"@"` operation: the operation
to load, the list of operations newly committed during resolution, and the
number of descendant-rebase passes run. -/
inductive ResolveRes where
  | resolved (op : Op) (newOps : List Op) (rebasePasses : Nat)
  | corruptStore
  deriving DecidableEq, Repr

/-- Modelled from the spec: `op_heads_store::resolve_op_heads` (jj-lib,
not under `src/`): zero heads is a fatal store inconsistency; exactly one
head is returned unchanged with no merge or rebase; with N ≥ 2 heads the
resolver callback above commits a single merged operation. -/
def resolve_op_heads (freshId : Nat) (opHeads : List Op) : ResolveRes :=
  match opHeads with
  | [] => .corruptStore
  | [h] => .resolved h [] 0
  | h :: rest =>
    let r := resolve_current_callback freshId h rest
    .resolved r.1 [r.1] r.2

/-- Folding merge-then-rebase over the remaining heads appends exactly
their ids to the parent list and counts one rebase pass per head. -/
theorem resolve_fold_spec (rest : List Op) (t : ResolveTx) :
    rest.foldl (fun t o => rebase_descendants (merge_operation t o)) t =
      ⟨t.base_op, t.parentIds ++ rest.map Op.id, t.rebasePasses + rest.length⟩ := by
  induction rest generalizing t with
  | nil => simp
  | cons o rest ih =>
    rw [List.foldl_cons, ih]
    simp [rebase_descendants, merge_operation, ResolveTx.mk.injEq, List.append_assoc]
    omega

/-! ## Transaction finish protocol -/

/-- The per-operation View state this core reads: the head-commit set and
this workspace's working-copy commit id (none = workspace deleted). -/
structure View where
  heads : List Nat
  wc_commit : Option Nat
  deriving DecidableEq, Repr

/-- File-level result of a working-copy checkout. -/
structure CheckoutStats where
  added_files : Nat
  updated_files : Nat
  removed_files : Nat
  skipped_files : Nat
  deriving DecidableEq, Repr

/-- The command error surfaced when `workspace.check_out` fails
(cli_util.rs:2179-2184 wraps it as an internal error naming the commit). -/
inductive CommandErr where
  | checkoutFailed (commitId : Nat)
  deriving DecidableEq, Repr

/-- The session state `finish_transaction` mutates: the operation the
session's repo handle is bound to, its View, the op-head set, and the
working-copy record. -/
structure SessionState where
  repo_op : Nat
  view : View
  op_heads : List Nat
  wcRec : WCRec
  deriving DecidableEq, Repr

/-- A transaction about to be finished: base operation and View, the
current (mutated) View, whether any change was accumulated
(`mut_repo.has_changes()`), and how many descendants the pre-commit
rebase pass will rewrite. -/
structure Transaction where
  base_op : Nat
  base_view : View
  cur_view : View
  has_changes : Bool
  pending_rebased : Nat
  deriving DecidableEq, Repr

/-- How `finish_transaction` reports: the no-op short-circuit prints
"Nothing changed." and is distinct by constructor from a successful
commit, which carries the new operation id, the rebased-descendant count
and the checkout stats (none when no filesystem checkout ran). -/
inductive TxOutcome where
  | nothingChanged
  | committed (newOp : Nat) (rebased : Nat) (stats : Option CheckoutStats)
  deriving DecidableEq, Repr

/-- cli_util.rs:827-828: the session may update the working copy iff it
was loaded at the current operation `"@"` and `--ignore-working-copy` was
not given. -/
def may_update_working_copy (loadedAtHead ignoreWorkingCopy : Bool) : Bool :=
  loadedAtHead && !ignoreWorkingCopy

/-- `update_working_copy` (cli_util.rs:2167-2193).  `treeOf` maps commit
ids to tree ids; `checkoutOk`/`stats` are the oracle for
`workspace.check_out`.  When the new commit's tree differs from the old
one, check out: on success return the stats and the record updated to the
new `(operation id, tree id)`; on failure surface the error (the record is
untouched).  When the trees are equal, only record the new operation id. -/
def update_working_copy (treeOf : Nat → Nat) (checkoutOk : Bool) (stats : CheckoutStats)
    (repoOp : Nat) (rec : WCRec) (old_commit : Option Nat) (new_commit : Nat) :
    Except CommandErr (Option CheckoutStats × WCRec) :=
  let old_tree_id := old_commit.map treeOf
  if some (treeOf new_commit) ≠ old_tree_id then
    if checkoutOk then
      .ok (some stats, ⟨repoOp, treeOf new_commit⟩)
    else
      .error (.checkoutFailed new_commit)
  else
    .ok (none, ⟨repoOp, rec.tree_id⟩)

/-- `finish_transaction` (cli_util.rs:1551-1608).  No-op short-circuit;
otherwise rebase descendants, read the old and new working-copy commits,
commit the transaction (minting operation `freshOp`, which replaces the
op-head set and rebinds the session), report changes, and reconcile the
working copy when allowed.  The returned state reflects every mutation
performed before an error. -/
def finish_transaction (treeOf : Nat → Nat) (checkoutOk : Bool) (stats : CheckoutStats)
    (mayUpdate : Bool) (freshOp : Nat) (st : SessionState) (tx : Transaction) :
    SessionState × Except CommandErr TxOutcome :=
  if tx.has_changes = false then
    (st, .ok .nothingChanged)
  else
    let num_rebased := tx.pending_rebased
    let maybe_old_wc_commit := tx.base_view.wc_commit
    let maybe_new_wc_commit := tx.cur_view.wc_commit
    let st1 : SessionState := ⟨freshOp, tx.cur_view, [freshOp], st.wcRec⟩
    if mayUpdate then
      match maybe_new_wc_commit with
      | some newC =>
        match update_working_copy treeOf checkoutOk stats freshOp st1.wcRec
            maybe_old_wc_commit newC with
        | .ok (s, rec2) => ({ st1 with wcRec := rec2 }, .ok (.committed freshOp num_rebased s))
        | .error e => (st1, .error e)
      | none => (st1, .ok (.committed freshOp num_rebased none))
    else
      (st1, .ok (.committed freshOp num_rebased none))

/-! ## Conflict delta reporter -/

/-- What `report_repo_changes` reads off a commit: its change id, the
tree-conflict predicate (`HasConflict`) and whether it modifies any file
(the `File(None)` filter predicate). -/
structure CommitInfo where
  change_id : Nat
  has_conflict : Bool
  touches_files : Bool
  deriving DecidableEq, Repr

/-- Modelled from the spec: evaluation of the revset `x.range(y)` (`x..y`)
built in `report_repo_changes` — "commits reachable by walking from one
head set toward (but not past) the other": ancestors of `toH` that are not
ancestors of `fromH`, over the commit DAG `cpar`, within `fuel` steps.
The revset engine itself is jj-lib, outside `src/`. -/
def rangeCommits (cpar : Nat → List Nat) (fuel : Nat) (fromH toH : List Nat) : List Nat :=
  (bfsList cpar fuel toH).filter (fun c => !(bfsList cpar fuel fromH).contains c)

/-- The conflict filter of `report_repo_changes` (cli_util.rs:1627-1628):
`HasConflict` intersected with `File(None)`, i.e. conflicted commits that
touch at least one file, excluding purely metadata-level conflicts. -/
def isReportableConflict (info : Nat → CommitInfo) (c : Nat) : Bool :=
  (info c).has_conflict && (info c).touches_files

/-- `removed_conflict_commits` (cli_util.rs:1629,1640):
`new_heads.range(&old_heads)` intersected with the conflict filter. -/
def removed_conflict_commits (cpar : Nat → List Nat) (fuel : Nat)
    (info : Nat → CommitInfo) (oldHeads newHeads : List Nat) : List Nat :=
  (rangeCommits cpar fuel newHeads oldHeads).filter (isReportableConflict info)

/-- `added_conflict_commits` (cli_util.rs:1630,1641):
`old_heads.range(&new_heads)` intersected with the conflict filter. -/
def added_conflict_commits (cpar : Nat → List Nat) (fuel : Nat)
    (info : Nat → CommitInfo) (oldHeads newHeads : List Nat) : List Nat :=
  (rangeCommits cpar fuel oldHeads newHeads).filter (isReportableConflict info)

/-- The change ids represented in a commit list — the key set of
`commits_by_change_id` (cli_util.rs:1643-1649). -/
def changeIdsOf (info : Nat → CommitInfo) (commits : List Nat) : List Nat :=
  commits.map (fun c => (info c).change_id)

/-- The "resolved or abandoned" group (cli_util.rs:1652-1654): change ids
of removed conflicted commits, retained only when absent from the added
group. -/
def resolved_conflict_change_ids (cpar : Nat → List Nat) (fuel : Nat)
    (info : Nat → CommitInfo) (oldHeads newHeads : List Nat) : List Nat :=
  (changeIdsOf info (removed_conflict_commits cpar fuel info oldHeads newHeads)).filter
    (fun cid =>
      !(changeIdsOf info (added_conflict_commits cpar fuel info oldHeads newHeads)).contains cid)

/-- The "new conflicts" group (cli_util.rs:1655-1657): change ids of added
conflicted commits, retained only when absent from the removed group. -/
def new_conflict_change_ids (cpar : Nat → List Nat) (fuel : Nat)
    (info : Nat → CommitInfo) (oldHeads newHeads : List Nat) : List Nat :=
  (changeIdsOf info (added_conflict_commits cpar fuel info oldHeads newHeads)).filter
    (fun cid =>
      !(changeIdsOf info (removed_conflict_commits cpar fuel info oldHeads newHeads)).contains cid)

/-! ## Claim theorems: staleness classifier -/

/-- C2: for every working-copy record and loaded snapshot the classifier
returns exactly one of four states: `Fresh` when the recorded tree id
equals the working-copy commit's tree id; otherwise, with `A` the closest
common ancestor of the recorded and the snapshot operation, `Updated`
(carrying the recorded operation) when `A` is the snapshot's operation,
`WorkingCopyStale` when `A` is the recorded operation, and
`SiblingOperation` when `A` is neither endpoint. -/
theorem check_stale_working_copy_classification (par : Nat → List Nat)
    (fuel wcTreeId wcCommitTreeId wcOpId repoOpId A : Nat)
    (hA : closestCommonNode par fuel wcOpId repoOpId = some A) :
    check_stale_working_copy par fuel wcTreeId wcCommitTreeId wcOpId repoOpId =
      some (if wcCommitTreeId = wcTreeId then .Fresh
            else if A = repoOpId then .Updated wcOpId
            else if A = wcOpId then .WorkingCopyStale
            else .SiblingOperation) := by
  by_cases h1 : wcCommitTreeId = wcTreeId
  · simp [check_stale_working_copy, h1]
  · simp [check_stale_working_copy, h1, hA]
    split_ifs <;> rfl

/-- Witness for C2 at a concrete input: operations equal, trees differ. -/
theorem check_stale_working_copy_classification_witness :
    closestCommonNode (fun _ => []) 1 0 0 = some 0 ∧
    check_stale_working_copy (fun _ => []) 1 0 1 0 0 =
      some (if 1 = 0 then .Fresh
            else if 0 = 0 then .Updated 0
            else if 0 = 0 then .WorkingCopyStale
            else .SiblingOperation) :=
  ⟨by decide, check_stale_working_copy_classification (fun _ => []) 1 0 1 0 0 0 (by decide)⟩

/-- C9: the classifier's common-ancestor search failing (no common node)
is a panic — modelled as `none` — and when some `root` is reachable from
both operations within the walk's horizon (both belong to the single
rooted operation DAG) that branch is unreachable: the classifier is total
and returns one of the four states. -/
theorem check_stale_working_copy_total (par : Nat → List Nat)
    (fuel wcTreeId wcCommitTreeId wcOpId repoOpId root : Nat)
    (hT : wcCommitTreeId ≠ wcTreeId) :
    (closestCommonNode par fuel wcOpId repoOpId = none →
      check_stale_working_copy par fuel wcTreeId wcCommitTreeId wcOpId repoOpId = none) ∧
    (root ∈ bfsList par fuel [wcOpId] → root ∈ bfsList par fuel [repoOpId] →
      (check_stale_working_copy par fuel wcTreeId wcCommitTreeId wcOpId repoOpId).isSome) := by
  constructor
  · intro hnone
    simp [check_stale_working_copy, hT, hnone]
  · intro h1 h2
    have hsome : (closestCommonNode par fuel wcOpId repoOpId).isSome := by
      unfold closestCommonNode
      rw [List.find?_isSome]
      exact ⟨root, h1, by simpa using h2⟩
    obtain ⟨A, hA⟩ := Option.isSome_iff_exists.mp hsome
    simp only [check_stale_working_copy, hT, if_neg hT, hA]
    split_ifs <;> simp

/-- Witness for C9: a two-operation log `1 → 0` with root `0`, trees 1 ≠ 0. -/
theorem check_stale_working_copy_total_witness :
    (1 : Nat) ≠ 0 ∧
    ((closestCommonNode (fun n => if n = 1 then [0] else []) 2 1 0 = none →
       check_stale_working_copy (fun n => if n = 1 then [0] else []) 2 0 1 1 0 = none) ∧
     (0 ∈ bfsList (fun n => if n = 1 then [0] else []) 2 [1] →
      0 ∈ bfsList (fun n => if n = 1 then [0] else []) 2 [0] →
       (check_stale_working_copy (fun n => if n = 1 then [0] else []) 2 0 1 1 0).isSome)) :=
  ⟨by decide, check_stale_working_copy_total (fun n => if n = 1 then [0] else []) 2 0 1 1 0 0
    (by decide)⟩

/-- C10: when the recorded operation id equals the snapshot's operation id
but the trees differ, the classifier returns `Updated` carrying that very
operation (the snapshot-operation test fires first), never
`WorkingCopyStale` or `SiblingOperation`. -/
theorem check_stale_working_copy_equal_ops (par : Nat → List Nat)
    (fuel wcTreeId wcCommitTreeId opId : Nat) (hT : wcCommitTreeId ≠ wcTreeId) :
    check_stale_working_copy par fuel wcTreeId wcCommitTreeId opId opId =
      some (.Updated opId) := by
  simp [check_stale_working_copy, hT, closestCommonNode_self]

/-- Witness for C10 at a concrete input. -/
theorem check_stale_working_copy_equal_ops_witness :
    (7 : Nat) ≠ 5 ∧
    check_stale_working_copy (fun _ => []) 3 5 7 4 4 = some (.Updated 4) :=
  ⟨by decide, check_stale_working_copy_equal_ops (fun _ => []) 3 5 7 4 (by decide)⟩

/-- C8: when the classifier reports `WorkingCopyStale`, snapshotting fails
with the user error carrying the stale-working-copy hint (naming the
recorded operation id) and mutates neither the loaded repo nor the
working-copy record; when it reports `SiblingOperation`, snapshotting
fails with the internal error naming both the repository's and the working
copy's operation ids, likewise without mutation. -/
theorem snapshot_working_copy_error_paths (par : Nat → List Nat)
    (fuel : Nat) (treeOf : Nat → Nat) (viewWc : Nat → Option Nat)
    (newTreeId freshOp repoOp wcCommit : Nat) (rec : WCRec)
    (hwc : viewWc repoOp = some wcCommit) :
    (check_stale_working_copy par fuel rec.tree_id (treeOf wcCommit) rec.op_id repoOp =
        some .WorkingCopyStale →
      snapshot_working_copy par fuel treeOf viewWc newTreeId freshOp repoOp rec =
        ((repoOp, rec), .error (.staleWorkingCopy rec.op_id))) ∧
    (check_stale_working_copy par fuel rec.tree_id (treeOf wcCommit) rec.op_id repoOp =
        some .SiblingOperation →
      snapshot_working_copy par fuel treeOf viewWc newTreeId freshOp repoOp rec =
        ((repoOp, rec), .error (.siblingOperations repoOp rec.op_id))) := by
  constructor
  · intro hcls
    simp [snapshot_working_copy, hwc, hcls]
  · intro hcls
    simp [snapshot_working_copy, hwc, hcls]

/-- Witness for C8: record at operation 0 / tree 5, repository advanced to
operation 1 whose working-copy commit 7 has tree 6 — the stale scenario. -/
theorem snapshot_working_copy_error_paths_witness :
    ((fun n => if n = 1 then some 7 else none) : Nat → Option Nat) 1 = some 7 ∧
    ((check_stale_working_copy (fun n => if n = 1 then [0] else []) 2 5 6 0 1 =
        some .WorkingCopyStale →
      snapshot_working_copy (fun n => if n = 1 then [0] else []) 2 (fun _ => 6)
          (fun n => if n = 1 then some 7 else none) 6 9 1 ⟨0, 5⟩ =
        ((1, ⟨0, 5⟩), .error (.staleWorkingCopy 0))) ∧
     (check_stale_working_copy (fun n => if n = 1 then [0] else []) 2 5 6 0 1 =
        some .SiblingOperation →
      snapshot_working_copy (fun n => if n = 1 then [0] else []) 2 (fun _ => 6)
          (fun n => if n = 1 then some 7 else none) 6 9 1 ⟨0, 5⟩ =
        ((1, ⟨0, 5⟩), .error (.siblingOperations 1 0)))) :=
  ⟨rfl, snapshot_working_copy_error_paths (fun n => if n = 1 then [0] else []) 2 (fun _ => 6)
    (fun n => if n = 1 then some 7 else none) 6 9 1 7 ⟨0, 5⟩ rfl⟩

/-! ## Claim theorems: operation head resolution -/

/-- C1: resolving the symbolic current operation returns a single op head
unchanged with no merged operation and no rebase pass; with N ≥ 2 heads it
commits exactly one new operation — after merging each remaining head and
running a rebase pass per merge (N − 1 passes) — whose parent list is
exactly the ids of the N original heads, hence equal to them as a set. -/
theorem resolve_op_heads_spec (freshId : Nat) (h : Op) (heads : List Op)
    (h2 : 2 ≤ heads.length) :
    resolve_op_heads freshId [h] = .resolved h [] 0 ∧
    resolve_op_heads freshId heads =
      .resolved ⟨freshId, heads.map Op.id⟩ [⟨freshId, heads.map Op.id⟩]
        (heads.length - 1) ∧
    (Op.parents ⟨freshId, heads.map Op.id⟩).toFinset = (heads.map Op.id).toFinset := by
  refine ⟨rfl, ?_, rfl⟩
  cases heads with
  | nil => simp at h2
  | cons a tl =>
    cases tl with
    | nil => simp at h2
    | cons b t =>
      have hf := resolve_fold_spec t (rebase_descendants (merge_operation ⟨a.id, [a.id], 0⟩ b))
      simp only [resolve_op_heads, resolve_current_callback, start_repo_transaction,
        List.foldl_cons, hf, tx_write]
      simp [rebase_descendants, merge_operation, Nat.add_comm]

/-- Witness for C1: one singleton head and the concrete pair of heads
`{1, 2}` over root 0, merged into operation 9 with parents `[1, 2]`. -/
theorem resolve_op_heads_spec_witness :
    2 ≤ [(⟨1, [0]⟩ : Op), ⟨2, [0]⟩].length ∧
    (resolve_op_heads 9 [⟨7, [0]⟩] = .resolved ⟨7, [0]⟩ [] 0 ∧
     resolve_op_heads 9 [⟨1, [0]⟩, ⟨2, [0]⟩] =
       .resolved ⟨9, [1, 2]⟩ [⟨9, [1, 2]⟩] 1 ∧
     (Op.parents ⟨9, [1, 2]⟩).toFinset = ([1, 2] : List Nat).toFinset) :=
  ⟨by decide, by
    have := resolve_op_heads_spec 9 ⟨7, [0]⟩ [⟨1, [0]⟩, ⟨2, [0]⟩] (by decide)
    simpa using this⟩

/-! ## Claim theorems: transaction finish -/

/-- C3: finishing a transaction with zero accumulated changes skips the
commit entirely — the session state (op-head set, View, working-copy
record) is returned unchanged, no rebase or checkout runs — and the
outcome is the `nothingChanged` report, distinct by construction from
every successful-commit report. -/
theorem finish_transaction_noop (treeOf : Nat → Nat) (checkoutOk : Bool)
    (stats : CheckoutStats) (mayUpdate : Bool) (freshOp : Nat)
    (st : SessionState) (tx : Transaction) (h : tx.has_changes = false) :
    finish_transaction treeOf checkoutOk stats mayUpdate freshOp st tx =
      (st, .ok .nothingChanged) ∧
    ∀ op r s, (TxOutcome.nothingChanged : TxOutcome) ≠ .committed op r s := by
  refine ⟨?_, fun op r s hc => by cases hc⟩
  simp [finish_transaction, h]

/-- Witness for C3 at a concrete no-change transaction. -/
theorem finish_transaction_noop_witness :
    (Transaction.has_changes ⟨0, ⟨[3], some 3⟩, ⟨[3], some 3⟩, false, 0⟩ = false) ∧
    (finish_transaction (fun _ => 5) true ⟨0, 0, 0, 0⟩ true 1
        ⟨0, ⟨[3], some 3⟩, [0], ⟨0, 5⟩⟩ ⟨0, ⟨[3], some 3⟩, ⟨[3], some 3⟩, false, 0⟩ =
      (⟨0, ⟨[3], some 3⟩, [0], ⟨0, 5⟩⟩, .ok .nothingChanged) ∧
    ∀ op r s, (TxOutcome.nothingChanged : TxOutcome) ≠ .committed op r s) :=
  ⟨rfl, finish_transaction_noop (fun _ => 5) true ⟨0, 0, 0, 0⟩ true 1
    ⟨0, ⟨[3], some 3⟩, [0], ⟨0, 5⟩⟩ ⟨0, ⟨[3], some 3⟩, ⟨[3], some 3⟩, false, 0⟩ rfl⟩

/-- C6 counterexample: the claim ties the checkout decision to the
working-copy *commit* differing between the old and new View, but the code
(`update_working_copy`, cli_util.rs:2174) compares *tree ids*.  Here the
session may update the working copy and the old and new working-copy
commits differ (10 vs 11), yet both share tree 5, so no checkout runs: the
outcome carries no checkout stats. -/
theorem finish_transaction_checkout_commit_diff_refuted :
    may_update_working_copy true false = true ∧
    (some 10 : Option Nat) ≠ some 11 ∧
    (finish_transaction (fun _ => 5) true ⟨1, 1, 1, 1⟩ (may_update_working_copy true false) 2
        ⟨0, ⟨[10], some 10⟩, [0], ⟨0, 5⟩⟩
        ⟨0, ⟨[10], some 10⟩, ⟨[11], some 11⟩, true, 0⟩).2 =
      .ok (.committed 2 0 none) := by
  refine ⟨rfl, by decide, ?_⟩
  rfl

/-- C6 as amended: during transaction finish the working copy is checked
out exactly when the session may update it, the new View still has a
working-copy commit, and that commit's *tree id* differs from the old
working-copy commit's tree id; stats are produced and the new
`(operation id, tree id)` pair is persisted into the record only when the
checkout succeeds, while a tree-equal reconciliation merely records the
new operation id. -/
theorem finish_transaction_checkout_exact (treeOf : Nat → Nat) (checkoutOk : Bool)
    (stats : CheckoutStats) (mayUpdate : Bool) (freshOp : Nat)
    (st : SessionState) (tx : Transaction) (n : Nat) (hch : tx.has_changes = true) :
    (mayUpdate = true → tx.cur_view.wc_commit = some n →
      some (treeOf n) ≠ tx.base_view.wc_commit.map treeOf → checkoutOk = true →
      finish_transaction treeOf checkoutOk stats mayUpdate freshOp st tx =
        (⟨freshOp, tx.cur_view, [freshOp], ⟨freshOp, treeOf n⟩⟩,
         .ok (.committed freshOp tx.pending_rebased (some stats)))) ∧
    (mayUpdate = true → tx.cur_view.wc_commit = some n →
      some (treeOf n) ≠ tx.base_view.wc_commit.map treeOf → checkoutOk = false →
      finish_transaction treeOf checkoutOk stats mayUpdate freshOp st tx =
        (⟨freshOp, tx.cur_view, [freshOp], st.wcRec⟩, .error (.checkoutFailed n))) ∧
    (mayUpdate = true → tx.cur_view.wc_commit = some n →
      some (treeOf n) = tx.base_view.wc_commit.map treeOf →
      finish_transaction treeOf checkoutOk stats mayUpdate freshOp st tx =
        (⟨freshOp, tx.cur_view, [freshOp], ⟨freshOp, st.wcRec.tree_id⟩⟩,
         .ok (.committed freshOp tx.pending_rebased none))) ∧
    (mayUpdate = false ∨ tx.cur_view.wc_commit = none →
      finish_transaction treeOf checkoutOk stats mayUpdate freshOp st tx =
        (⟨freshOp, tx.cur_view, [freshOp], st.wcRec⟩,
         .ok (.committed freshOp tx.pending_rebased none))) := by
  refine ⟨?_, ?_, ?_, ?_⟩
  · intro hm hn hne hok
    simp [finish_transaction, hch, hm, hn, update_working_copy, hne, hok]
  · intro hm hn hne hok
    simp [finish_transaction, hch, hm, hn, update_working_copy, hne, hok]
  · intro hm hn heq
    simp [finish_transaction, hch, hm, hn, update_working_copy, heq]
  · rintro (hm | hn)
    · simp [finish_transaction, hch, hm]
    · cases hmu : mayUpdate
      · simp [finish_transaction, hch, hn, hmu]
      · simp [finish_transaction, hch, hn, hmu]

/-- Witness for the amended C6: trees 5 (old) vs 6 (new) differ, checkout
succeeds, and the record is advanced to `(2, 6)`. -/
theorem finish_transaction_checkout_exact_witness :
    (Transaction.has_changes ⟨0, ⟨[10], some 10⟩, ⟨[11], some 11⟩, true, 3⟩ = true) ∧
    ((true = true → (⟨[11], some 11⟩ : View).wc_commit = some 11 →
      some ((fun c => if c = 11 then 6 else 5) 11) ≠
        (⟨[10], some 10⟩ : View).wc_commit.map (fun c => if c = 11 then 6 else 5) →
      true = true →
      finish_transaction (fun c => if c = 11 then 6 else 5) true ⟨1, 1, 1, 1⟩ true 2
          ⟨0, ⟨[10], some 10⟩, [0], ⟨0, 5⟩⟩ ⟨0, ⟨[10], some 10⟩, ⟨[11], some 11⟩, true, 3⟩ =
        (⟨2, ⟨[11], some 11⟩, [2], ⟨2, (fun c => if c = 11 then 6 else 5) 11⟩⟩,
         .ok (.committed 2 3 (some ⟨1, 1, 1, 1⟩)))) ∧
     (true = true → (⟨[11], some 11⟩ : View).wc_commit = some 11 →
      some ((fun c => if c = 11 then 6 else 5) 11) ≠
        (⟨[10], some 10⟩ : View).wc_commit.map (fun c => if c = 11 then 6 else 5) →
      true = false →
      finish_transaction (fun c => if c = 11 then 6 else 5) true ⟨1, 1, 1, 1⟩ true 2
          ⟨0, ⟨[10], some 10⟩, [0], ⟨0, 5⟩⟩ ⟨0, ⟨[10], some 10⟩, ⟨[11], some 11⟩, true, 3⟩ =
        (⟨2, ⟨[11], some 11⟩, [2], ⟨0, 5⟩⟩, .error (.checkoutFailed 11))) ∧
     (true = true → (⟨[11], some 11⟩ : View).wc_commit = some 11 →
      some ((fun c => if c = 11 then 6 else 5) 11) =
        (⟨[10], some 10⟩ : View).wc_commit.map (fun c => if c = 11 then 6 else 5) →
      finish_transaction (fun c => if c = 11 then 6 else 5) true ⟨1, 1, 1, 1⟩ true 2
          ⟨0, ⟨[10], some 10⟩, [0], ⟨0, 5⟩⟩ ⟨0, ⟨[10], some 10⟩, ⟨[11], some 11⟩, true, 3⟩ =
        (⟨2, ⟨[11], some 11⟩, [2], ⟨2, 5⟩⟩, .ok (.committed 2 3 none))) ∧
     (true = false ∨ (⟨[11], some 11⟩ : View).wc_commit = none →
      finish_transaction (fun c => if c = 11 then 6 else 5) true ⟨1, 1, 1, 1⟩ true 2
          ⟨0, ⟨[10], some 10⟩, [0], ⟨0, 5⟩⟩ ⟨0, ⟨[10], some 10⟩, ⟨[11], some 11⟩, true, 3⟩ =
        (⟨2, ⟨[11], some 11⟩, [2], ⟨0, 5⟩⟩, .ok (.committed 2 3 none)))) :=
  ⟨rfl, finish_transaction_checkout_exact (fun c => if c = 11 then 6 else 5) true ⟨1, 1, 1, 1⟩
    true 2 ⟨0, ⟨[10], some 10⟩, [0], ⟨0, 5⟩⟩ ⟨0, ⟨[10], some 10⟩, ⟨[11], some 11⟩, true, 3⟩
    11 rfl⟩

/-- C7: the new operation is committed before working-copy reconciliation;
when the checkout then fails, the returned session state already carries
the committed operation as its bound repo and sole op head together with
the new View (nothing is rolled back), and the checkout failure is
surfaced to the caller as an error. -/
theorem finish_transaction_commit_survives_checkout_failure (treeOf : Nat → Nat)
    (stats : CheckoutStats) (freshOp : Nat) (st : SessionState) (tx : Transaction)
    (n : Nat) (hch : tx.has_changes = true) (hn : tx.cur_view.wc_commit = some n)
    (hne : some (treeOf n) ≠ tx.base_view.wc_commit.map treeOf) :
    finish_transaction treeOf false stats true freshOp st tx =
      (⟨freshOp, tx.cur_view, [freshOp], st.wcRec⟩, .error (.checkoutFailed n)) := by
  simp [finish_transaction, hch, hn, update_working_copy, hne]

/-- Witness for C7: checkout fails; the state still shows operation 2
committed, heads `[2]`, new View, and the error is returned. -/
theorem finish_transaction_commit_survives_checkout_failure_witness :
    (Transaction.has_changes ⟨0, ⟨[10], some 10⟩, ⟨[11], some 11⟩, true, 0⟩ = true) ∧
    ((⟨[11], some 11⟩ : View).wc_commit = some 11) ∧
    (some ((fun c => if c = 11 then 6 else 5) 11) ≠
      (⟨[10], some 10⟩ : View).wc_commit.map (fun c => if c = 11 then 6 else 5)) ∧
    finish_transaction (fun c => if c = 11 then 6 else 5) false ⟨0, 0, 0, 0⟩ true 2
        ⟨0, ⟨[10], some 10⟩, [0], ⟨0, 5⟩⟩ ⟨0, ⟨[10], some 10⟩, ⟨[11], some 11⟩, true, 0⟩ =
      (⟨2, ⟨[11], some 11⟩, [2], ⟨0, 5⟩⟩, .error (.checkoutFailed 11)) :=
  ⟨rfl, rfl, by decide,
   finish_transaction_commit_survives_checkout_failure (fun c => if c = 11 then 6 else 5)
     ⟨0, 0, 0, 0⟩ 2 ⟨0, ⟨[10], some 10⟩, [0], ⟨0, 5⟩⟩
     ⟨0, ⟨[10], some 10⟩, ⟨[11], some 11⟩, true, 0⟩ 11 rfl rfl (by decide)⟩

/-! ## Claim theorems: conflict delta reporter -/

/-- C4: the removed set is exactly the reportable conflicts (non-empty
file-level conflict) in the range from the new heads toward the old heads
minus the (disjoint) opposite range, symmetrically for the added set, and
each set only contains commits of its range — nothing outside the two
ranges is inspected. -/
theorem report_repo_changes_conflict_ranges (cpar : Nat → List Nat) (fuel : Nat)
    (info : Nat → CommitInfo) (oldH newH : List Nat) (c : Nat) :
    (c ∈ removed_conflict_commits cpar fuel info oldH newH ↔
      isReportableConflict info c = true ∧
      c ∈ rangeCommits cpar fuel newH oldH ∧ c ∉ rangeCommits cpar fuel oldH newH) ∧
    (c ∈ added_conflict_commits cpar fuel info oldH newH ↔
      isReportableConflict info c = true ∧
      c ∈ rangeCommits cpar fuel oldH newH ∧ c ∉ rangeCommits cpar fuel newH oldH) := by
  have hdisj : ∀ x : Nat, x ∈ rangeCommits cpar fuel newH oldH →
      x ∉ rangeCommits cpar fuel oldH newH := by
    intro x hx hx'
    simp [rangeCommits, List.mem_filter] at hx hx'
    exact hx.2 hx'.1
  have hdisj' : ∀ x : Nat, x ∈ rangeCommits cpar fuel oldH newH →
      x ∉ rangeCommits cpar fuel newH oldH := by
    intro x hx hx'
    exact hdisj x hx' hx
  constructor
  · constructor
    · intro hc
      simp only [removed_conflict_commits, List.mem_filter] at hc
      exact ⟨hc.2, hc.1, hdisj c hc.1⟩
    · intro hc
      simp only [removed_conflict_commits, List.mem_filter]
      exact ⟨hc.2.1, hc.1⟩
  · constructor
    · intro hc
      simp only [added_conflict_commits, List.mem_filter] at hc
      exact ⟨hc.2, hc.1, hdisj' c hc.1⟩
    · intro hc
      simp only [added_conflict_commits, List.mem_filter]
      exact ⟨hc.2.1, hc.1⟩

/-- C5: a change id is never in both the "resolved or abandoned" and the
"new conflicts" group, and a change id with conflicted commits in both the
removed and the added set appears in neither. -/
theorem report_repo_changes_partition (cpar : Nat → List Nat) (fuel : Nat)
    (info : Nat → CommitInfo) (oldH newH : List Nat) (cid : Nat) :
    ¬(cid ∈ resolved_conflict_change_ids cpar fuel info oldH newH ∧
      cid ∈ new_conflict_change_ids cpar fuel info oldH newH) ∧
    (cid ∈ changeIdsOf info (removed_conflict_commits cpar fuel info oldH newH) →
     cid ∈ changeIdsOf info (added_conflict_commits cpar fuel info oldH newH) →
     cid ∉ resolved_conflict_change_ids cpar fuel info oldH newH ∧
     cid ∉ new_conflict_change_ids cpar fuel info oldH newH) := by
  constructor
  · rintro ⟨h1, h2⟩
    simp [resolved_conflict_change_ids, new_conflict_change_ids, List.mem_filter] at h1 h2
    exact h2.2 h1.1
  · intro hr ha
    constructor
    · intro h1
      simp [resolved_conflict_change_ids, List.mem_filter] at h1
      exact h1.2 ha
    · intro h2
      simp [new_conflict_change_ids, List.mem_filter] at h2
      exact h2.2 hr

/-- Witness for C5 on a concrete diverged pair: commits 1 and 2 both carry
change id 100 and are conflicted, so change 100 is in both the removed and
added sets and is excluded from both report groups. -/
theorem report_repo_changes_partition_witness :
    100 ∉ resolved_conflict_change_ids (fun n => if n = 0 then [] else [0]) 2
        (fun c => if c = 1 then ⟨100, true, true⟩ else if c = 2 then ⟨100, true, true⟩
          else ⟨0, false, false⟩) [1] [2] ∧
    100 ∉ new_conflict_change_ids (fun n => if n = 0 then [] else [0]) 2
        (fun c => if c = 1 then ⟨100, true, true⟩ else if c = 2 then ⟨100, true, true⟩
          else ⟨0, false, false⟩) [1] [2] :=
  (report_repo_changes_partition (fun n => if n = 0 then [] else [0]) 2
    (fun c => if c = 1 then ⟨100, true, true⟩ else if c = 2 then ⟨100, true, true⟩
      else ⟨0, false, false⟩) [1] [2] 100).2 (by decide) (by decide)

end JJ
